import Mathlib

/-!
Verification development for the capped-cylinder instanced-rendering
collections (cappedcylindercollection.py and newcappedcylindercollection.py).

Scalars are modelled as exact rationals; the python code computes with
32-bit floats, but every property checked here is an algebraic identity or
a structural fact about array layout, so exact arithmetic is the faithful
reading.  Vertex coordinates on the unit circle involve cos and sin of
2*pi*i/S; the mesh builders are therefore parametric in the function that
realises the ring point at index i and height z, and the theorems
instantiate that parameter with real cos and sin.
-/

/-- One queued cylinder descriptor, as appended by add_cylinder:
position, radius, height, RGBA color, 3x3 orientation matrix. -/
structure CylInstance where
  pos : Fin 3 → ℚ
  radius : ℚ
  height : ℚ
  color : Fin 4 → ℚ
  ori : Matrix (Fin 3) (Fin 3) ℚ

/-- Lateral (side-wall) vertices: the code builds a bottom ring at
z = -0.5 and a top ring at z = +0.5, each with S points at angles
2*pi*i/S, and stacks bottom before top.  The parameter point i z stands
for the 3d point (cos(2*pi*i/S), sin(2*pi*i/S), z). -/
def lateralMeshVertices (S : ℕ) (point : ℕ → ℚ → α) : List α :=
  (List.range S).map (fun i => point i (-(1/2))) ++
    (List.range S).map (fun i => point i (1/2))

/-- Lateral triangle indices: for each segment i with ni = (i+1) mod S the
code appends [i, i+S, ni] and [ni, i+S, ni+S]. -/
def lateralMeshIndices (S : ℕ) : List (ℕ × ℕ × ℕ) :=
  (List.range S).flatMap
    (fun i => [(i, i + S, (i + 1) % S), ((i + 1) % S, i + S, (i + 1) % S + S)])

/-- Disk (cap) vertices: a center vertex followed by K rim points at angles
2*pi*j/K; center is the realisation of the origin. -/
def diskMeshVertices (K : ℕ) (center : α) (rim : ℕ → α) : List α :=
  center :: (List.range K).map rim

/-- Disk triangle fan: the code appends [0, i, i+1] for i in 1..K-1 and then
the closing triangle [0, K, 1]. -/
def diskMeshIndices (K : ℕ) : List (ℕ × ℕ × ℕ) :=
  (List.range (K - 1)).map (fun j => (0, j + 1, j + 2)) ++ [(0, K, 1)]

/-- Cached side geometry: vertices kept as (ring point index, z) pairs plus
the triangle list. -/
abbrev SideGeom := List (ℕ × ℚ) × List (ℕ × ℕ × ℕ)

/-- Cached disk geometry: vertices kept as none for the center and some j
for rim point j, plus the triangle list. -/
abbrev DiskGeom := List (Option ℕ) × List (ℕ × ℕ × ℕ)

/-- The side geometry generated for a given segment count. -/
def sideGeometry (S : ℕ) : SideGeom :=
  (lateralMeshVertices S Prod.mk, lateralMeshIndices S)

/-- The disk geometry generated for a given slice count. -/
def diskGeometry (K : ℕ) : DiskGeom :=
  (diskMeshVertices K none some, diskMeshIndices K)

/-- Per-instance lateral transform: ori @ diag(r, r, h). -/
def sideTransform (t : CylInstance) : Matrix (Fin 3) (Fin 3) ℚ :=
  t.ori * Matrix.diagonal ![t.radius, t.radius, t.height]

/-- Per-instance cap transform: ori @ diag(r, r, 1). -/
def capTransform (t : CylInstance) : Matrix (Fin 3) (Fin 3) ℚ :=
  t.ori * Matrix.diagonal ![t.radius, t.radius, 1]

/-- Bottom cap placement: pos + ori @ [0, 0, -0.5*h]. -/
def capBottomPos (t : CylInstance) : Fin 3 → ℚ :=
  t.pos + t.ori.mulVec ![0, 0, -(1/2) * t.height]

/-- Top cap placement: pos + ori @ [0, 0, +0.5*h]. -/
def capTopPos (t : CylInstance) : Fin 3 → ℚ :=
  t.pos + t.ori.mulVec ![0, 0, (1/2) * t.height]

/-- The three parallel per-instance arrays uploaded to one instanced mesh. -/
structure MeshData where
  positions : List (Fin 3 → ℚ)
  transforms : List (Matrix (Fin 3) (Fin 3) ℚ)
  colors : List (Fin 4 → ℚ)

/-- Lateral batch built by refresh: instance order, one entry per instance. -/
def sideBatch (insts : List CylInstance) : MeshData :=
  ⟨insts.map CylInstance.pos, insts.map sideTransform, insts.map CylInstance.color⟩

/-- Cap batch built by refresh: the loop writes index 2i (bottom) and
2i+1 (top) for instance i, duplicating transform and color. -/
def capBatch (insts : List CylInstance) : MeshData :=
  ⟨insts.flatMap (fun t => [capBottomPos t, capTopPos t]),
   insts.flatMap (fun t => [capTransform t, capTransform t]),
   insts.flatMap (fun t => [t.color, t.color])⟩

/-- A created instanced-mesh draw object: its identity and the last
uploaded instance arrays. -/
structure BoundMesh where
  id : ℕ
  data : MeshData

/-- Calls made against the render sink during one refresh. -/
inductive SinkEvent where
  | createSide : SideGeom → MeshData → SinkEvent
  | updateSide : ℕ → MeshData → SinkEvent
  | createDisk : DiskGeom → MeshData → SinkEvent
  | updateDisk : ℕ → MeshData → SinkEvent

/-- The process-wide geometry cache: a single unconditioned slot per mesh
kind, exactly as the class attributes _side_vertices etc. behave. -/
structure GeomCache where
  side : Option SideGeom
  disk : Option DiskGeom

/-- State of one CappedCylinderCollection: geometry parameters, queued
instances, the lazily created meshes, and a counter supplying fresh draw
object identities. -/
structure CollState where
  segs : ℕ
  slices : ℕ
  instances : List CylInstance
  sideMesh : Option BoundMesh
  diskMesh : Option BoundMesh
  nextId : ℕ

/-- add_cylinder: append one descriptor; a missing orientation defaults to
the identity matrix.  The python code performs no validation here. -/
def add_cylinder (st : CollState) (p : Fin 3 → ℚ) (r h : ℚ) (c : Fin 4 → ℚ)
    (ori : Option (Matrix (Fin 3) (Fin 3) ℚ)) : CollState :=
  { st with instances := st.instances ++ [⟨p, r, h, c, ori.getD 1⟩] }

/-- refresh: early return on an empty queue; otherwise fill each empty
cache slot from the collection parameters, rebuild both batches, and for
each mesh either create it (recording the new object) or update it in
place.  Side mesh is handled before disk mesh, as in the source. -/
def refresh (cache : GeomCache) (st : CollState) :
    GeomCache × CollState × List SinkEvent :=
  if st.instances.length = 0 then (cache, st, [])
  else
    let sideGeom := cache.side.getD (sideGeometry st.segs)
    let diskGeom := cache.disk.getD (diskGeometry st.slices)
    let cache2 : GeomCache := ⟨some sideGeom, some diskGeom⟩
    let sb := sideBatch st.instances
    let cb := capBatch st.instances
    match st.sideMesh, st.diskMesh with
    | none, none =>
        (cache2,
         { st with sideMesh := some ⟨st.nextId, sb⟩,
                   diskMesh := some ⟨st.nextId + 1, cb⟩,
                   nextId := st.nextId + 2 },
         [.createSide sideGeom sb, .createDisk diskGeom cb])
    | none, some dm =>
        (cache2,
         { st with sideMesh := some ⟨st.nextId, sb⟩,
                   diskMesh := some ⟨dm.id, cb⟩,
                   nextId := st.nextId + 1 },
         [.createSide sideGeom sb, .updateDisk dm.id cb])
    | some sm, none =>
        (cache2,
         { st with sideMesh := some ⟨sm.id, sb⟩,
                   diskMesh := some ⟨st.nextId, cb⟩,
                   nextId := st.nextId + 1 },
         [.updateSide sm.id sb, .createDisk diskGeom cb])
    | some sm, some dm =>
        (cache2,
         { st with sideMesh := some ⟨sm.id, sb⟩, diskMesh := some ⟨dm.id, cb⟩ },
         [.updateSide sm.id sb, .updateDisk dm.id cb])

/-- State of the all-up-front collection of newcappedcylindercollection.py:
structure-of-arrays fields plus the two meshes with their uploaded data. -/
structure NewColl where
  N : ℕ
  positions : List (Fin 3 → ℚ)
  radii : List ℚ
  heights : List ℚ
  orientations : List (Matrix (Fin 3) (Fin 3) ℚ)
  colors : List (Fin 4 → ℚ)
  sideMesh : MeshData
  capMesh : MeshData

/-- Side transforms of the new collection: orientation[k] @ diag(r, r, h)
for k in range(N). -/
def newSideTransforms (c : NewColl) : List (Matrix (Fin 3) (Fin 3) ℚ) :=
  (List.range c.N).map (fun k =>
    c.orientations.getD k 1 *
      Matrix.diagonal ![c.radii.getD k 0, c.radii.getD k 0, c.heights.getD k 0])

/-- Bottom cap placements of the new collection: positions - axes * half_h,
where axes is column 2 of each orientation and half_h = heights * 0.5. -/
def newCapBottomPositions (c : NewColl) : List (Fin 3 → ℚ) :=
  (List.range c.N).map (fun k => fun i =>
    c.positions.getD k 0 i -
      c.orientations.getD k 1 i 2 * (c.heights.getD k 0 * (1/2)))

/-- Top cap placements of the new collection: positions + axes * half_h. -/
def newCapTopPositions (c : NewColl) : List (Fin 3 → ℚ) :=
  (List.range c.N).map (fun k => fun i =>
    c.positions.getD k 0 i +
      c.orientations.getD k 1 i 2 * (c.heights.getD k 0 * (1/2)))

/-- Cap transforms of the new collection: orientation[k] @ diag(r, r, 1). -/
def newCapTransforms (c : NewColl) : List (Matrix (Fin 3) (Fin 3) ℚ) :=
  (List.range c.N).map (fun k =>
    c.orientations.getD k 1 *
      Matrix.diagonal ![c.radii.getD k 0, c.radii.getD k 0, 1])

/-- Cap positions of the new collection: np.vstack([pos0, pos1]), that is
all bottoms followed by all tops. -/
def newCapPositions (c : NewColl) : List (Fin 3 → ℚ) :=
  newCapBottomPositions c ++ newCapTopPositions c

/-- Cap colors of the new collection: np.vstack([colors, colors]). -/
def newCapColors (c : NewColl) : List (Fin 4 → ℚ) :=
  c.colors ++ c.colors

/-- Constructor of the new collection: asserts that every array has the
length of positions (shape checks only, no positivity checks), stores the
arrays and creates both meshes with the computed instance data. -/
def initColl (ps : List (Fin 3 → ℚ)) (rs hs : List ℚ)
    (os : List (Matrix (Fin 3) (Fin 3) ℚ)) (cs : List (Fin 4 → ℚ)) :
    Option NewColl :=
  if rs.length = ps.length ∧ hs.length = ps.length ∧
      os.length = ps.length ∧ cs.length = ps.length then
    let base : NewColl := ⟨ps.length, ps, rs, hs, os, cs, ⟨[], [], []⟩, ⟨[], [], []⟩⟩
    some { base with
           sideMesh := ⟨ps, newSideTransforms base, cs⟩,
           capMesh := ⟨newCapPositions base,
                       newCapTransforms base ++ newCapTransforms base,
                       newCapColors base⟩ }
  else none

/-- set_colors: assert the new array has length N, then store it and upload
colors to both meshes (the failing assert happens before any mutation). -/
def set_colors (c : NewColl) (nc : List (Fin 4 → ℚ)) : NewColl × Bool :=
  if nc.length = c.N then
    ({ c with colors := nc,
              sideMesh := { c.sideMesh with colors := nc },
              capMesh := { c.capMesh with colors := nc ++ nc } }, true)
  else (c, false)

/-- The tail of set_transforms: recompute side and cap instance data from
the stored fields and upload them; mesh colors are left as they were. -/
def uploadTransforms (c : NewColl) : NewColl :=
  { c with sideMesh := ⟨c.positions, newSideTransforms c, c.sideMesh.colors⟩,
           capMesh := ⟨newCapPositions c,
                       newCapTransforms c ++ newCapTransforms c,
                       c.capMesh.colors⟩ }

/-- Fourth if-block of set_transforms (orientations), then the uploads.
A failing assert aborts with the state as mutated so far. -/
def setOrientationsStep (c : NewColl)
    (os : Option (List (Matrix (Fin 3) (Fin 3) ℚ))) : NewColl × Bool :=
  match os with
  | none => (uploadTransforms c, true)
  | some a =>
      if a.length = c.N then (uploadTransforms { c with orientations := a }, true)
      else (c, false)

/-- Third if-block of set_transforms (heights). -/
def setHeightsStep (c : NewColl) (hs : Option (List ℚ))
    (os : Option (List (Matrix (Fin 3) (Fin 3) ℚ))) : NewColl × Bool :=
  match hs with
  | none => setOrientationsStep c os
  | some a =>
      if a.length = c.N then setOrientationsStep { c with heights := a } os
      else (c, false)

/-- Second if-block of set_transforms (radii). -/
def setRadiiStep (c : NewColl) (rs hs : Option (List ℚ))
    (os : Option (List (Matrix (Fin 3) (Fin 3) ℚ))) : NewColl × Bool :=
  match rs with
  | none => setHeightsStep c hs os
  | some a =>
      if a.length = c.N then setHeightsStep { c with radii := a } hs os
      else (c, false)

/-- set_transforms: process positions, radii, heights, orientations in that
order, each guarded by its own length assert, then recompute and upload.
The boolean records whether the call ran to completion. -/
def set_transforms (c : NewColl) (ps : Option (List (Fin 3 → ℚ)))
    (rs hs : Option (List ℚ))
    (os : Option (List (Matrix (Fin 3) (Fin 3) ℚ))) : NewColl × Bool :=
  match ps with
  | none => setRadiiStep c rs hs os
  | some a =>
      if a.length = c.N then setRadiiStep { c with positions := a } rs hs os
      else (c, false)

/-- The all-zero position. -/
def dPos : Fin 3 → ℚ := fun _ => 0

/-- The all-one position. -/
def onePos : Fin 3 → ℚ := fun _ => 1

/-- The all-zero color. -/
def dCol : Fin 4 → ℚ := fun _ => 0

/-- The all-one color. -/
def oneCol : Fin 4 → ℚ := fun _ => 1

/-- Default descriptor used only as a List.getD fallback. -/
def dInst : CylInstance := ⟨dPos, 0, 0, dCol, 1⟩

/-- A concrete axis-aligned descriptor. -/
def inst0 : CylInstance := ⟨dPos, 1, 2, dCol, 1⟩

/-- A second concrete descriptor. -/
def inst1 : CylInstance := ⟨onePos, 2, 4, oneCol, 1⟩

/-- Rotation by 90 degrees about the x axis. -/
def rotX90 : Matrix (Fin 3) (Fin 3) ℚ := !![1, 0, 0; 0, 0, -1; 0, 1, 0]

/-- A descriptor carrying the x-axis rotation. -/
def cylR : CylInstance := ⟨dPos, 3, 5, dCol, rotX90⟩

/-- The empty process-wide geometry cache. -/
def cache0 : GeomCache := ⟨none, none⟩

/-- A singleton collection with 4 segments and 4 slices, not yet realized. -/
def st0 : CollState := ⟨4, 4, [inst0], none, none, 0⟩

/-- A singleton collection with 3 segments and 3 slices, not yet realized. -/
def stB : CollState := ⟨3, 3, [inst0], none, none, 0⟩

/-- An empty collection. -/
def stE : CollState := ⟨4, 4, [], none, none, 0⟩

/-- A concrete one-instance new collection. -/
def coll1 : NewColl := ⟨1, [dPos], [1], [2], [1], [dCol], ⟨[], [], []⟩, ⟨[], [], []⟩⟩

/-- A concrete two-instance new collection. -/
def coll2 : NewColl :=
  ⟨2, [dPos, onePos], [1, 2], [2, 4], [1, 1], [dCol, oneCol], ⟨[], [], []⟩, ⟨[], [], []⟩⟩

theorem length_pairFlatMap (f g : α → β) (l : List α) :
    (l.flatMap (fun t => [f t, g t])).length = 2 * l.length := by
  induction l with
  | nil => simp
  | cons t ts ih => simp [ih]; omega

theorem getD_range (n k : ℕ) (hk : k < n) (d : ℕ) : (List.range n).getD k d = k := by
  rw [List.getD_eq_getElem?_getD, List.getElem?_range hk]; rfl

theorem getD_map_range (f : ℕ → β) (n k : ℕ) (hk : k < n) (d : β) :
    ((List.range n).map f).getD k d = f k := by
  rw [List.getD_eq_getElem?_getD, List.getElem?_map, List.getElem?_range hk]; rfl

theorem getD_pairFlatMap_even (f g : α → β) (l : List α) (k : ℕ) (hk : k < l.length)
    (d : β) (a : α) :
    (l.flatMap (fun t => [f t, g t])).getD (2 * k) d = f (l.getD k a) := by
  induction l generalizing k with
  | nil => simp at hk
  | cons t ts ih =>
    cases k with
    | zero => simp
    | succ k =>
      have h2 : 2 * (k + 1) = 2 * k + 1 + 1 := by ring
      rw [h2]
      simp only [List.flatMap_cons, List.cons_append, List.singleton_append,
        List.getD_cons_succ]
      exact ih k (by simp at hk; omega)

theorem getD_pairFlatMap_odd (f g : α → β) (l : List α) (k : ℕ) (hk : k < l.length)
    (d : β) (a : α) :
    (l.flatMap (fun t => [f t, g t])).getD (2 * k + 1) d = g (l.getD k a) := by
  induction l generalizing k with
  | nil => simp at hk
  | cons t ts ih =>
    cases k with
    | zero => simp
    | succ k =>
      have h2 : 2 * (k + 1) + 1 = 2 * k + 1 + 1 + 1 := by ring
      rw [h2]
      simp only [List.flatMap_cons, List.cons_append, List.singleton_append,
        List.getD_cons_succ]
      exact ih k (by simp at hk; omega)

/-- Claim C10: refresh on a collection whose instance queue is empty is a
no-op: the cache, the collection state and hence the unbound status are
unchanged and no sink call is made. -/
theorem refresh_empty_noop (cache : GeomCache) (st : CollState)
    (h : st.instances = []) : refresh cache st = (cache, st, []) := by
  simp [refresh, h]

/-- Witness for refresh_empty_noop at the concrete empty collection. -/
theorem refresh_empty_noop_witness : refresh cache0 stE = (cache0, stE, []) :=
  refresh_empty_noop cache0 stE rfl

/-- Claim C7 (amended): add_cylinder performs no validation at all.  For
every radius and height, including non-positive ones, the call succeeds and
appends exactly one descriptor; the bulk constructor likewise checks only
array lengths, so non-positive entries are stored, not rejected. -/
theorem add_cylinder_no_validation (st : CollState) (p : Fin 3 → ℚ) (r h : ℚ)
    (c : Fin 4 → ℚ) (ori : Option (Matrix (Fin 3) (Fin 3) ℚ)) :
    (add_cylinder st p r h c ori).instances
      = st.instances ++ [⟨p, r, h, c, ori.getD 1⟩] ∧
    (add_cylinder st p r h c ori).instances.length = st.instances.length + 1 := by
  constructor
  · rfl
  · simp [add_cylinder]

/-- Counterexample to claim C7 as stated: adding a descriptor with negative
radius and height raises no error and mutates the store, and the bulk
constructor accepts a negative radius and height as well. -/
theorem add_negative_radius_accepted :
    (add_cylinder stE dPos (-1) (-2) dCol none).instances = [⟨dPos, -1, -2, dCol, 1⟩] ∧
    initColl [dPos] [-1] [-2] [1] [dCol] ≠ none := by
  constructor
  · rfl
  · simp [initColl]

/-- Claim C8 (amended): unit-geometry generation performs no validation:
for every segment count S and slice count K, including values below 3, it
returns a mesh, with 2S lateral vertices, 2S lateral triangles, K+1 disk
vertices and (K-1)+1 disk triangles. -/
theorem geometry_no_validation (S K : ℕ) (point : ℕ → ℚ → α) (center : β)
    (rim : ℕ → β) :
    (lateralMeshVertices S point).length = 2 * S ∧
    (lateralMeshIndices S).length = 2 * S ∧
    (diskMeshVertices K center rim).length = K + 1 ∧
    (diskMeshIndices K).length = (K - 1) + 1 := by
  refine ⟨?_, ?_, ?_, ?_⟩
  · simp [lateralMeshVertices]; ring
  · rw [lateralMeshIndices, length_pairFlatMap]; simp
  · simp [diskMeshVertices]
  · simp [diskMeshIndices]

/-- Counterexample to claim C8 as stated: at segment count 2 the lateral
generation does not fail; it returns an ordinary (degenerate) mesh. -/
theorem geometry_small_segments_ok :
    lateralMeshVertices 2 Prod.mk = [(0, -(1/2)), (1, -(1/2)), (0, 1/2), (1, 1/2)] ∧
    lateralMeshIndices 2 = [(0, 2, 1), (1, 2, 3), (1, 3, 0), (0, 3, 2)] := by
  exact ⟨rfl, rfl⟩

theorem vec3_two (a b c : ℚ) : ![a, b, c] 2 = c := rfl

/-- Claim C3: for every instance the bottom cap placement equals
pos - axis*h/2 and the top cap placement equals pos + axis*h/2, where axis
is column 2 of the orientation; and both cap entries of a pair in the
batch carry the same transform ori @ diag(r, r, 1), with no axial scale. -/
theorem cap_placement (t : CylInstance) (insts : List CylInstance) (k : ℕ)
    (hk : k < insts.length) :
    capBottomPos t = (fun i => t.pos i - t.ori i 2 * (t.height / 2)) ∧
    capTopPos t = (fun i => t.pos i + t.ori i 2 * (t.height / 2)) ∧
    capTransform t = t.ori * Matrix.diagonal ![t.radius, t.radius, 1] ∧
    (capBatch insts).transforms.getD (2 * k) 1
      = capTransform (insts.getD k dInst) ∧
    (capBatch insts).transforms.getD (2 * k + 1) 1
      = capTransform (insts.getD k dInst) := by
  refine ⟨?_, ?_, rfl, ?_, ?_⟩
  · funext i
    simp only [capBottomPos, Pi.add_apply, Matrix.mulVec, Matrix.dotProduct,
      Fin.sum_univ_three, Matrix.cons_val_zero, Matrix.cons_val_one,
      Matrix.head_cons, Matrix.vecHead, Matrix.vecTail, Function.comp_apply,
      Fin.succ_zero_eq_one, Fin.succ_one_eq_two, vec3_two]
    ring
  · funext i
    simp only [capTopPos, Pi.add_apply, Matrix.mulVec, Matrix.dotProduct,
      Fin.sum_univ_three, Matrix.cons_val_zero, Matrix.cons_val_one,
      Matrix.head_cons, Matrix.vecHead, Matrix.vecTail, Function.comp_apply,
      Fin.succ_zero_eq_one, Fin.succ_one_eq_two, vec3_two]
    ring
  · exact getD_pairFlatMap_even capTransform capTransform insts k hk 1 dInst
  · exact getD_pairFlatMap_odd capTransform capTransform insts k hk 1 dInst

/-- Witness for cap_placement at a concrete rotated instance. -/
theorem cap_placement_witness :
    capBottomPos cylR = (fun i => cylR.pos i - cylR.ori i 2 * (cylR.height / 2)) ∧
    (capBatch [inst0]).transforms.getD 0 1 = capTransform ([inst0].getD 0 dInst) :=
  ⟨(cap_placement cylR [inst0] 0 (by simp)).1,
   (cap_placement cylR [inst0] 0 (by simp)).2.2.2.1⟩

/-- Claim C4: the lateral transform is ori @ diag(r, r, h), the lateral
placements are exactly the instance positions, and for an orthogonal
orientation left multiplication by the transpose recovers diag(r, r, h). -/
theorem lateral_transform (t : CylInstance) (insts : List CylInstance) :
    sideTransform t = t.ori * Matrix.diagonal ![t.radius, t.radius, t.height] ∧
    (sideBatch insts).positions = insts.map CylInstance.pos ∧
    (t.ori.transpose * t.ori = 1 →
      t.ori.transpose * sideTransform t
        = Matrix.diagonal ![t.radius, t.radius, t.height]) := by
  refine ⟨rfl, rfl, fun hR => ?_⟩
  rw [sideTransform, ← Matrix.mul_assoc, hR, Matrix.one_mul]

/-- Witness for lateral_transform: a quarter turn about x with radius 3 and
height 5; the transpose of the rotation times the lateral transform gives
back diag(3, 3, 5). -/
theorem lateral_transform_witness :
    rotX90.transpose * rotX90 = 1 ∧
    rotX90.transpose * sideTransform cylR = Matrix.diagonal ![3, 3, 5] := by
  have hR : rotX90.transpose * rotX90 = 1 := by
    rw [show rotX90.transpose = !![(1:ℚ), 0, 0; 0, 0, 1; 0, -1, 0] from by
      ext i j
      fin_cases i <;> fin_cases j <;> simp [rotX90, Matrix.vecHead, Matrix.vecTail]]
    rw [rotX90, Matrix.mul_fin_three]
    norm_num
    exact Matrix.one_fin_three.symm
  exact ⟨hR, (lateral_transform cylR []).2.2 hR⟩

/-- Claim C5: for every S at least 3, lateral generation yields exactly 2S
vertices, vertex i (i < S) at (cos(2 pi i/S), sin(2 pi i/S), -1/2) and
vertex i+S at the same angle with z = +1/2, and exactly 2S triangles, two
per segment i with ni = (i+1) mod S, namely (i, i+S, ni) and
(ni, i+S, ni+S), every vertex index being below 2S. -/
theorem lateral_mesh_spec (S : ℕ) (hS : 3 ≤ S) :
    (lateralMeshVertices S (fun i z =>
        ((Real.cos (2 * Real.pi * i / S), Real.sin (2 * Real.pi * i / S), (z : ℝ))
          : ℝ × ℝ × ℝ))).length = 2 * S ∧
    (lateralMeshIndices S).length = 2 * S ∧
    (∀ i, i < S →
      (lateralMeshVertices S (fun i z =>
          ((Real.cos (2 * Real.pi * i / S), Real.sin (2 * Real.pi * i / S), (z : ℝ))
            : ℝ × ℝ × ℝ))).getD i (0, 0, 0)
        = (Real.cos (2 * Real.pi * i / S), Real.sin (2 * Real.pi * i / S), -(1/2)) ∧
      (lateralMeshVertices S (fun i z =>
          ((Real.cos (2 * Real.pi * i / S), Real.sin (2 * Real.pi * i / S), (z : ℝ))
            : ℝ × ℝ × ℝ))).getD (i + S) (0, 0, 0)
        = (Real.cos (2 * Real.pi * i / S), Real.sin (2 * Real.pi * i / S), 1/2)) ∧
    (∀ i, i < S →
      (lateralMeshIndices S).getD (2 * i) (0, 0, 0) = (i, i + S, (i + 1) % S) ∧
      (lateralMeshIndices S).getD (2 * i + 1) (0, 0, 0)
        = ((i + 1) % S, i + S, (i + 1) % S + S)) ∧
    (∀ tri ∈ lateralMeshIndices S,
      tri.1 < 2 * S ∧ tri.2.1 < 2 * S ∧ tri.2.2 < 2 * S) := by
  refine ⟨?_, ?_, ?_, ?_, ?_⟩
  · simp [lateralMeshVertices]; ring
  · rw [lateralMeshIndices, length_pairFlatMap]; simp
  · intro i hi
    constructor
    · rw [lateralMeshVertices, List.getD_append _ _ _ i (by simpa using hi),
        getD_map_range _ S i hi]
      norm_num
    · rw [lateralMeshVertices, List.getD_append_right _ _ _ (i + S) (by simp)]
      simp only [List.length_map, List.length_range, Nat.add_sub_cancel]
      rw [getD_map_range _ S i hi]
      norm_num
  · intro i hi
    constructor
    · rw [lateralMeshIndices,
        getD_pairFlatMap_even _ _ (List.range S) i (by simpa using hi) _ 0,
        getD_range S i hi]
    · rw [lateralMeshIndices,
        getD_pairFlatMap_odd _ _ (List.range S) i (by simpa using hi) _ 0,
        getD_range S i hi]
  · intro tri htri
    rw [lateralMeshIndices] at htri
    simp only [List.mem_flatMap, List.mem_range, List.mem_cons,
      List.not_mem_nil, or_false] at htri
    obtain ⟨i, hi, hmem⟩ := htri
    have hm : (i + 1) % S < S := Nat.mod_lt _ (by omega)
    rcases hmem with rfl | rfl
    · exact ⟨by omega, by simp; omega, by simp; omega⟩
    · exact ⟨by simp; omega, by simp; omega, by simp; omega⟩

/-- Witness for lateral_mesh_spec at S = 3: six vertices, six triangles,
and the two triangles of segment 1 are (1, 4, 2) and (2, 4, 5). -/
theorem lateral_mesh_spec_witness :
    (lateralMeshVertices 3 (fun i z =>
        ((Real.cos (2 * Real.pi * i / ((3 : ℕ) : ℝ)),
          Real.sin (2 * Real.pi * i / ((3 : ℕ) : ℝ)), (z : ℝ))
          : ℝ × ℝ × ℝ))).length = 6 ∧
    (lateralMeshIndices 3).length = 6 ∧
    (lateralMeshIndices 3).getD 2 (0, 0, 0) = (1, 4, 2) ∧
    (lateralMeshIndices 3).getD 3 (0, 0, 0) = (2, 4, 5) :=
  ⟨(lateral_mesh_spec 3 (by norm_num)).1,
   (lateral_mesh_spec 3 (by norm_num)).2.1,
   ((lateral_mesh_spec 3 (by norm_num)).2.2.2.1 1 (by norm_num)).1,
   ((lateral_mesh_spec 3 (by norm_num)).2.2.2.1 1 (by norm_num)).2⟩

/-- Claim C2 (amended): in cappedcylindercollection refresh the cap batch
has length 2N and is interleaved per instance: entry 2k is the bottom cap
of instance k, entry 2k+1 its top cap, and both entries carry the color of
instance k.  In newcappedcylindercollection the cap batch also has length
2N but uses a block layout: entry k is the bottom cap of instance k and
entry N+k its top cap, so for N above 1 the pairs are not contiguous. -/
theorem cap_batch_layout (insts : List CylInstance) (k : ℕ) (hk : k < insts.length)
    (c : NewColl) (hc : k < c.N) (hcol : c.colors.length = c.N) :
    (capBatch insts).positions.length = 2 * insts.length ∧
    (capBatch insts).colors.length = 2 * insts.length ∧
    (capBatch insts).positions.getD (2 * k) dPos = capBottomPos (insts.getD k dInst) ∧
    (capBatch insts).positions.getD (2 * k + 1) dPos = capTopPos (insts.getD k dInst) ∧
    (capBatch insts).colors.getD (2 * k) dCol = (insts.getD k dInst).color ∧
    (capBatch insts).colors.getD (2 * k + 1) dCol = (insts.getD k dInst).color ∧
    (newCapPositions c).length = 2 * c.N ∧
    (newCapColors c).length = 2 * c.N ∧
    (newCapPositions c).getD k dPos
      = (fun i => c.positions.getD k 0 i
          - c.orientations.getD k 1 i 2 * (c.heights.getD k 0 / 2)) ∧
    (newCapPositions c).getD (c.N + k) dPos
      = (fun i => c.positions.getD k 0 i
          + c.orientations.getD k 1 i 2 * (c.heights.getD k 0 / 2)) := by
  refine ⟨?_, ?_, ?_, ?_, ?_, ?_, ?_, ?_, ?_, ?_⟩
  · simp only [capBatch]; rw [length_pairFlatMap]
  · simp only [capBatch]; rw [length_pairFlatMap]
  · simp only [capBatch]
    exact getD_pairFlatMap_even capBottomPos capTopPos insts k hk dPos dInst
  · simp only [capBatch]
    exact getD_pairFlatMap_odd capBottomPos capTopPos insts k hk dPos dInst
  · simp only [capBatch]
    exact getD_pairFlatMap_even _ _ insts k hk dCol dInst
  · simp only [capBatch]
    exact getD_pairFlatMap_odd _ _ insts k hk dCol dInst
  · simp [newCapPositions, newCapBottomPositions, newCapTopPositions]; ring
  · simp [newCapColors, hcol]; ring
  · rw [newCapPositions,
      List.getD_append _ _ _ k (by simpa [newCapBottomPositions] using hc),
      newCapBottomPositions, getD_map_range _ _ k hc]
    funext i
    ring
  · rw [newCapPositions,
      List.getD_append_right _ _ _ (c.N + k) (by simp [newCapBottomPositions])]
    simp only [newCapBottomPositions, List.length_map, List.length_range,
      Nat.add_sub_cancel_left]
    rw [newCapTopPositions, getD_map_range _ _ k hc]
    funext i
    ring

/-- Witness for cap_batch_layout on a concrete two-instance store. -/
theorem cap_batch_layout_witness :
    (capBatch [inst0, inst1]).positions.getD 3 dPos
      = capTopPos ([inst0, inst1].getD 1 dInst) ∧
    (newCapPositions coll2).length = 4 :=
  ⟨(cap_batch_layout [inst0, inst1] 1 (by simp) coll2 (by decide) rfl).2.2.2.1,
   (cap_batch_layout [inst0, inst1] 1 (by simp) coll2 (by decide) rfl).2.2.2.2.2.2.1⟩

/-- Counterexample to claim C2 as stated: for the two-instance collection
built by the newcappedcylindercollection constructor, entry 1 of the cap
color array is not the color of instance 0, as an interleaved layout would
require; the batch is grouped all bottoms first, then all tops. -/
theorem new_cap_layout_counterexample :
    ((initColl [dPos, onePos] [1, 2] [2, 4] [1, 1] [dCol, oneCol]).elim
        ([] : List (Fin 4 → ℚ)) (fun c => c.capMesh.colors)).getD 1 dCol ≠ dCol := by
  intro hcontra
  have he : ((initColl [dPos, onePos] [1, 2] [2, 4] [1, 1] [dCol, oneCol]).elim
      ([] : List (Fin 4 → ℚ)) (fun c => c.capMesh.colors)).getD 1 dCol = oneCol := rfl
  rw [he] at hcontra
  have h2 := congrFun hcontra 0
  norm_num [oneCol, dCol] at h2

theorem setOrientationsStep_fail (c : NewColl)
    (os : Option (List (Matrix (Fin 3) (Fin 3) ℚ)))
    (h : (setOrientationsStep c os).2 = false) :
    (setOrientationsStep c os).1 = c := by
  cases os with
  | none => simp [setOrientationsStep] at h
  | some a =>
    by_cases hl : a.length = c.N
    · simp [setOrientationsStep, hl] at h
    · simp [setOrientationsStep, hl]

theorem setHeightsStep_fail (c : NewColl) (hs : Option (List ℚ))
    (os : Option (List (Matrix (Fin 3) (Fin 3) ℚ)))
    (h : (setHeightsStep c hs os).2 = false) :
    (setHeightsStep c hs os).1.sideMesh = c.sideMesh ∧
    (setHeightsStep c hs os).1.capMesh = c.capMesh ∧
    (setHeightsStep c hs os).1.colors = c.colors := by
  cases hs with
  | none =>
    have h2 : (setOrientationsStep c os).1 = c := setOrientationsStep_fail c os h
    simp only [setHeightsStep] at *
    rw [h2]
    simp
  | some a =>
    by_cases hl : a.length = c.N
    · simp only [setHeightsStep, if_pos hl] at h ⊢
      have h2 := setOrientationsStep_fail _ os h
      rw [h2]
      simp
    · simp only [setHeightsStep, if_neg hl]
      simp

theorem setRadiiStep_fail (c : NewColl) (rs hs : Option (List ℚ))
    (os : Option (List (Matrix (Fin 3) (Fin 3) ℚ)))
    (h : (setRadiiStep c rs hs os).2 = false) :
    (setRadiiStep c rs hs os).1.sideMesh = c.sideMesh ∧
    (setRadiiStep c rs hs os).1.capMesh = c.capMesh ∧
    (setRadiiStep c rs hs os).1.colors = c.colors := by
  cases rs with
  | none =>
    simp only [setRadiiStep] at *
    exact setHeightsStep_fail c hs os h
  | some a =>
    by_cases hl : a.length = c.N
    · simp only [setRadiiStep, if_pos hl] at h ⊢
      exact setHeightsStep_fail _ hs os h
    · simp only [setRadiiStep, if_neg hl]
      simp

/-- Claim C6 (amended): each provided array is validated against N before
it is stored, so a call whose single provided array has the wrong length
fails with the collection unchanged, and a failing set_transforms call
never touches the uploaded mesh data or the colors; but when several
arrays are provided, those processed before the offending one have already
been stored, so rejection is not all-or-nothing across arrays. -/
theorem set_calls_validate (c : NewColl) (nc : List (Fin 4 → ℚ))
    (a : List (Fin 3 → ℚ)) (r h : List ℚ) (o : List (Matrix (Fin 3) (Fin 3) ℚ))
    (ps : Option (List (Fin 3 → ℚ))) (rs hs : Option (List ℚ))
    (os : Option (List (Matrix (Fin 3) (Fin 3) ℚ))) :
    (nc.length ≠ c.N → set_colors c nc = (c, false)) ∧
    (a.length ≠ c.N → set_transforms c (some a) none none none = (c, false)) ∧
    (r.length ≠ c.N → set_transforms c none (some r) none none = (c, false)) ∧
    (h.length ≠ c.N → set_transforms c none none (some h) none = (c, false)) ∧
    (o.length ≠ c.N → set_transforms c none none none (some o) = (c, false)) ∧
    ((set_transforms c ps rs hs os).2 = false →
      (set_transforms c ps rs hs os).1.sideMesh = c.sideMesh ∧
      (set_transforms c ps rs hs os).1.capMesh = c.capMesh ∧
      (set_transforms c ps rs hs os).1.colors = c.colors) := by
  refine ⟨?_, ?_, ?_, ?_, ?_, ?_⟩
  · intro hne; simp [set_colors, hne]
  · intro hne; simp [set_transforms, hne]
  · intro hne; simp [set_transforms, setRadiiStep, hne]
  · intro hne; simp [set_transforms, setRadiiStep, setHeightsStep, hne]
  · intro hne
    simp [set_transforms, setRadiiStep, setHeightsStep, setOrientationsStep, hne]
  · intro hfail
    cases ps with
    | none =>
      simp only [set_transforms] at *
      exact setRadiiStep_fail c rs hs os hfail
    | some a2 =>
      by_cases hl : a2.length = c.N
      · simp only [set_transforms, if_pos hl] at hfail ⊢
        exact setRadiiStep_fail _ rs hs os hfail
      · simp only [set_transforms, if_neg hl]
        simp

/-- Witness for set_calls_validate: a wrong-length set_colors call on the
concrete one-instance collection is rejected unchanged, and a failing
set_transforms call leaves the uploaded side mesh unchanged. -/
theorem set_calls_validate_witness :
    set_colors coll1 [] = (coll1, false) ∧
    (set_transforms coll1 none (some [1, 2]) none none).1.sideMesh = coll1.sideMesh :=
  ⟨(set_calls_validate coll1 [] [] [] [] [] none none none none).1 (by decide),
   ((set_calls_validate coll1 [] [] [] [] [] none (some [1, 2]) none none).2.2.2.2.2
      rfl).1⟩

/-- Counterexample to claim C6 as stated: set_transforms with a valid
positions array and a wrong-length radii array fails, yet the stored
positions have already been replaced, so the failed call mutated state. -/
theorem set_transforms_not_atomic :
    (set_transforms coll1 (some [onePos]) (some [1, 2]) none none).2 = false ∧
    (set_transforms coll1 (some [onePos]) (some [1, 2]) none none).1.positions
      ≠ coll1.positions := by
  refine ⟨rfl, ?_⟩
  intro hcontra
  have he : (set_transforms coll1 (some [onePos]) (some [1, 2]) none none).1.positions
      = [onePos] := rfl
  have he2 : coll1.positions = [dPos] := rfl
  rw [he, he2] at hcontra
  injection hcontra with h1 h2
  have h3 := congrFun h1 0
  norm_num [onePos, dPos] at h3

/-- Claim C1: on a populated, unbound collection the first refresh creates
both draw objects exactly once, records them with fresh identities, and a
second refresh with the store unchanged leaves cache and state fixed and
issues only update calls against the recorded identities, carrying batch
contents identical to those of the first refresh. -/
theorem refresh_protocol (cache : GeomCache) (st : CollState)
    (hne : st.instances ≠ []) (hsm : st.sideMesh = none) (hdm : st.diskMesh = none) :
    refresh cache st =
      (⟨some (cache.side.getD (sideGeometry st.segs)),
        some (cache.disk.getD (diskGeometry st.slices))⟩,
       { st with sideMesh := some ⟨st.nextId, sideBatch st.instances⟩,
                 diskMesh := some ⟨st.nextId + 1, capBatch st.instances⟩,
                 nextId := st.nextId + 2 },
       [SinkEvent.createSide (cache.side.getD (sideGeometry st.segs))
          (sideBatch st.instances),
        SinkEvent.createDisk (cache.disk.getD (diskGeometry st.slices))
          (capBatch st.instances)]) ∧
    refresh (refresh cache st).1 (refresh cache st).2.1 =
      ((refresh cache st).1, (refresh cache st).2.1,
       [SinkEvent.updateSide st.nextId (sideBatch st.instances),
        SinkEvent.updateDisk (st.nextId + 1) (capBatch st.instances)]) := by
  have h0 : ¬ st.instances.length = 0 := by
    simpa [List.length_eq_zero] using hne
  have h1 : refresh cache st =
      (⟨some (cache.side.getD (sideGeometry st.segs)),
        some (cache.disk.getD (diskGeometry st.slices))⟩,
       { st with sideMesh := some ⟨st.nextId, sideBatch st.instances⟩,
                 diskMesh := some ⟨st.nextId + 1, capBatch st.instances⟩,
                 nextId := st.nextId + 2 },
       [SinkEvent.createSide (cache.side.getD (sideGeometry st.segs))
          (sideBatch st.instances),
        SinkEvent.createDisk (cache.disk.getD (diskGeometry st.slices))
          (capBatch st.instances)]) := by
    simp [refresh, h0, hsm, hdm]
  refine ⟨h1, ?_⟩
  rw [h1]
  simp [refresh, h0]

/-- Witness for refresh_protocol at the concrete singleton collection:
the first refresh emits the two create calls, the second the two update
calls with the same batches and the recorded identities 0 and 1. -/
theorem refresh_protocol_witness :
    (refresh cache0 st0).2.2 =
      [SinkEvent.createSide (sideGeometry 4) (sideBatch [inst0]),
       SinkEvent.createDisk (diskGeometry 4) (capBatch [inst0])] ∧
    (refresh (refresh cache0 st0).1 (refresh cache0 st0).2.1).2.2 =
      [SinkEvent.updateSide 0 (sideBatch [inst0]),
       SinkEvent.updateDisk 1 (capBatch [inst0])] := by
  have h := refresh_protocol cache0 st0 (by simp [st0]) rfl rfl
  constructor
  · rw [h.1]
    rfl
  · rw [h.2]
    rfl

/-- Claim C9, recorded as a code defect: the cache is one unconditioned
slot, so after a 4-segment collection refreshes, a 3-segment collection
refreshing against the same cache creates its meshes with the 4-segment
geometry, although the two parameterisations generate different meshes. -/
theorem geometry_cache_not_keyed :
    (refresh cache0 st0).1 =
      (⟨some (sideGeometry 4), some (diskGeometry 4)⟩ : GeomCache) ∧
    (refresh (refresh cache0 st0).1 stB).2.2 =
      [SinkEvent.createSide (sideGeometry 4) (sideBatch [inst0]),
       SinkEvent.createDisk (diskGeometry 4) (capBatch [inst0])] ∧
    sideGeometry 4 ≠ sideGeometry 3 ∧ diskGeometry 4 ≠ diskGeometry 3 := by
  refine ⟨rfl, rfl, ?_, ?_⟩
  · intro hcontra
    have hlen := congrArg (fun g => g.1.length) hcontra
    simp [sideGeometry, lateralMeshVertices] at hlen
  · intro hcontra
    have hlen := congrArg (fun g => g.1.length) hcontra
    simp [diskGeometry, diskMeshVertices] at hlen
